import Mathlib

/-!
# interIsoFoam_time: per-step CPU-time accounting

A shallow embedding of the time-step body and of the report of
`src/interIsoFoam_time.C` (lines 78-301), and the properties of its time
accounting.

Modelling conventions.

* CPU time is counted in clock ticks (`Nat`).  `cpuTime::elapsedCpuTime()` is the
  difference between the current reading of the process clock and the reading
  taken when the `cpuTime` object was constructed.  The accumulators are
  `double` in the source; their arithmetic is taken to be exact here, so
  rounding of floating-point sums is outside the model.
* Every external collaborator (an included solver fragment, `mesh.update()`,
  `runTime.write()`, ...) is a `Call`: it consumes `dur` ticks of CPU time and
  then either returns or throws.  A collaborator does not touch the
  accumulators.  Constructing and reading timers, and evaluating the boolean
  signals, cost no time, except `pimple.loop()`, which is a `Call`.
* The boolean signals read from `pimple`, `mesh` and the controls dictionary are
  inputs.
* A thrown error propagates upwards through the enclosing scopes; destructors of
  the automatic objects of those scopes run, statements after the throwing one do
  not.
-/

namespace InterIsoFoamTime

/-! ## Data model -/

/-- The twelve per-step accumulators declared at lines 89-91, as a handle that a
timer can be bound to (`double&` in the source). -/
inductive Bucket where
  | ctrl | reconst | meshUpd | remap | mrf | corrPhi
  | alpha | mix | uEqn | pEqn | turb | write
  deriving DecidableEq, Repr

/-- The twelve accumulators in the order of their declaration (lines 89-91). -/
def Bucket.all : List Bucket :=
  [.ctrl, .reconst, .meshUpd, .remap, .mrf, .corrPhi, .alpha, .mix, .uEqn, .pEqn, .turb, .write]

/-- The values of the twelve accumulators (lines 89-91). -/
@[ext]
structure StepProfile where
  accCtrl : Nat := 0
  accReconst : Nat := 0
  accMeshUpd : Nat := 0
  accRemap : Nat := 0
  accMRF : Nat := 0
  accCorrPhi : Nat := 0
  accAlpha : Nat := 0
  accMix : Nat := 0
  accUEqn : Nat := 0
  accPEqn : Nat := 0
  accTurb : Nat := 0
  accWrite : Nat := 0
  deriving DecidableEq, Repr

/-- Read the accumulator a handle refers to. -/
def StepProfile.get (p : StepProfile) : Bucket → Nat
  | .ctrl => p.accCtrl
  | .reconst => p.accReconst
  | .meshUpd => p.accMeshUpd
  | .remap => p.accRemap
  | .mrf => p.accMRF
  | .corrPhi => p.accCorrPhi
  | .alpha => p.accAlpha
  | .mix => p.accMix
  | .uEqn => p.accUEqn
  | .pEqn => p.accPEqn
  | .turb => p.accTurb
  | .write => p.accWrite

/-- The statement `acc += e` on the accumulator a handle refers to. -/
def StepProfile.add (p : StepProfile) (b : Bucket) (e : Nat) : StepProfile :=
  match b with
  | .ctrl => { p with accCtrl := p.accCtrl + e }
  | .reconst => { p with accReconst := p.accReconst + e }
  | .meshUpd => { p with accMeshUpd := p.accMeshUpd + e }
  | .remap => { p with accRemap := p.accRemap + e }
  | .mrf => { p with accMRF := p.accMRF + e }
  | .corrPhi => { p with accCorrPhi := p.accCorrPhi + e }
  | .alpha => { p with accAlpha := p.accAlpha + e }
  | .mix => { p with accMix := p.accMix + e }
  | .uEqn => { p with accUEqn := p.accUEqn + e }
  | .pEqn => { p with accPEqn := p.accPEqn + e }
  | .turb => { p with accTurb := p.accTurb + e }
  | .write => { p with accWrite := p.accWrite + e }

/-- The sum `accTotal` of lines 267-270. -/
def StepProfile.accTotal (p : StepProfile) : Nat :=
  p.accCtrl + p.accReconst + p.accMeshUpd + p.accRemap + p.accMRF +
  p.accCorrPhi + p.accAlpha + p.accMix + p.accUEqn + p.accPEqn +
  p.accTurb + p.accWrite

/-- The observable state of the process: the CPU clock and the accumulators. -/
structure Machine where
  cpu : Nat
  acc : StepProfile
  deriving DecidableEq, Repr

/-- One invocation of an external collaborator: it burns `dur` ticks of CPU time
and then returns, or throws when `throws` is set. -/
structure Call where
  dur : Nat := 0
  throws : Bool := false
  deriving DecidableEq, Repr

/-! ## Statements -/

/-- A statement sequence: from a machine state it yields `some a` on normal
completion and `none` when an error is propagating, together with the state
reached. -/
def Exec (α : Type) : Type := Machine → Option α × Machine

/-- Sequencing of statements: what follows a throwing statement is skipped. -/
def Exec.bind {α β : Type} (x : Exec α) (f : α → Exec β) : Exec β := fun m =>
  match x m with
  | (some a, m1) => f a m1
  | (none, m1) => (none, m1)

instance : Monad Exec where
  pure a := fun m => (some a, m)
  bind := Exec.bind

/-- Run an external collaborator. -/
def invoke (c : Call) : Exec Unit := fun m =>
  (if c.throws then none else some (), { m with cpu := m.cpu + c.dur })

/-- Construction of a `cpuTime` object: it remembers the current clock reading. -/
def cpuTime : Exec Nat := fun m => (some m.cpu, m)

/-- The member `elapsedCpuTime()` of a `cpuTime` constructed at reading `t`. -/
def elapsedCpuTime (t : Nat) : Exec Nat := fun m => (some (m.cpu - t), m)

/-- The statement `acc += e` for the accumulator `b`. -/
def accumulate (b : Bucket) (e : Nat) : Exec Unit := fun m =>
  (some (), { m with acc := m.acc.add b e })

/-- The block `{ ScopedCpu s(acc); body }` (lines 39-44): the member `t` is
started by the constructor, and the destructor `acc += t.elapsedCpuTime()` runs
when the block is left, whether `body` completed or threw. -/
def ScopedCpu (b : Bucket) (body : Exec Unit) : Exec Unit := fun m =>
  let t := m.cpu
  match body m with
  | (r, m1) => (r, { m1 with acc := m1.acc.add b (m1.cpu - t) })

/-- An `if` statement without `else`. -/
def ifThen (c : Bool) (body : Exec Unit) : Exec Unit :=
  if c then body else pure ()

/-! ## Inputs of one time step -/

/-- What the collaborators do during one pass through the body of
`while (pimple.loop())` (lines 108-252). -/
structure OuterIter where
  /-- The evaluation of `pimple.loop()` that admits this pass. -/
  loopTest : Call := {}
  /-- Signal `pimple.firstIter()`. -/
  firstIter : Bool := false
  /-- Call `advector.surf().reconstruct()`. -/
  reconstruct : Call := {}
  /-- Call `mesh.update()`. -/
  meshUpdate : Call := {}
  /-- Signal `mesh.changing()`. -/
  meshChanging : Bool := false
  /-- The assignments to `gh` and `ghf` (lines 133-134). -/
  ghUpdate : Call := {}
  /-- The remap block, lines 150-156. -/
  remap : Call := {}
  /-- Call `MRF.update()`. -/
  mrfUpdate : Call := {}
  /-- The assignment `phi = mesh.Sf() & Uf()` (line 173). -/
  phiAbs : Call := {}
  /-- The fragment `correctPhi.H` (line 179). -/
  correctPhiH : Call := {}
  /-- Call `fvc::makeRelative(phi, U)` (line 183). -/
  makeRelative : Call := {}
  /-- Call `mixture.correct()` of line 185. -/
  mixtureCorrectPhi : Call := {}
  /-- The fragment `meshCourantNo.H`. -/
  meshCourantNo : Call := {}
  /-- The fragment `alphaControls.H`. -/
  alphaControls : Call := {}
  /-- The fragment `alphaEqnSubCycle.H`. -/
  alphaEqnSubCycle : Call := {}
  /-- Call `mixture.correct()` of line 212. -/
  mixtureCorrect : Call := {}
  /-- Signal `pimple.frozenFlow()`. -/
  frozenFlow : Bool := false
  /-- The fragment `UEqn.H`. -/
  uEqn : Call := {}
  /-- The fragment `pEqn.H`, once per pass of `while (pimple.correct())`. -/
  pEqn : List Call := []
  /-- Signal `pimple.turbCorr()`. -/
  turbCorr : Bool := false
  /-- Call `turbulence->correct()`. -/
  turbulenceCorrect : Call := {}
  deriving DecidableEq, Repr

/-- What the collaborators do during one pass through the body of
`while (runTime.run())` (lines 78-301). -/
structure StepInput where
  /-- Signal `isA<dynamicRefineFvMesh>(mesh)`. -/
  isAdaptive : Bool := false
  /-- Control `moveMeshOuterCorrectors`. -/
  moveMeshOuterCorrectors : Bool := false
  /-- Control `correctPhi`. -/
  correctPhi : Bool := false
  /-- Control `checkMeshCourantNo`. -/
  checkMeshCourantNo : Bool := false
  /-- The four fragments of lines 94-97. -/
  controls : Call := {}
  /-- Lines 100-102: `++runTime` and the `Time = ` message. -/
  advanceTime : Call := {}
  /-- The passes of the PIMPLE loop, in order. -/
  outer : List OuterIter := []
  /-- The evaluation of `pimple.loop()` that ends the loop. -/
  loopExit : Call := {}
  /-- Call `runTime.write()`. -/
  write : Call := {}
  /-- Call `runTime.printExecutionTime(Info)`. -/
  printExecutionTime : Call := {}
  /-- Printing the `PIMPLE loop:` line (line 266). -/
  pimpleLine : Call := {}
  deriving DecidableEq, Repr

/-! ## The time-step body -/

/-- Lines 224-226: `cpuTime tUEqn; UEqn.H; accUEqn += tUEqn.elapsedCpuTime();`. -/
def momentumPredictor (c : Call) : Exec Unit := do
  let tUEqn ← cpuTime
  invoke c
  let e ← elapsedCpuTime tUEqn
  accumulate .uEqn e

/-- Lines 234-238: `{ cpuTime tPEqn; pEqn.H; accPEqn += tPEqn.elapsedCpuTime(); }`. -/
def pressureCorrector (c : Call) : Exec Unit := do
  let tPEqn ← cpuTime
  invoke c
  let e ← elapsedCpuTime tPEqn
  accumulate .pEqn e

/-- Lines 230-240: `while (pimple.correct())`. -/
def pressureLoop : List Call → Exec Unit
  | [] => pure ()
  | c :: cs => do
    pressureCorrector c
    pressureLoop cs

/-- Lines 169-189: the block guarded by `correctPhi`. -/
def correctPhiBlock (it : OuterIter) : Exec Unit := do
  invoke it.phiAbs
  ScopedCpu .corrPhi (do
    invoke it.correctPhiH
    invoke it.makeRelative
    invoke it.mixtureCorrectPhi)

/-- Lines 133-194: the body of `if (mesh.changing())`. -/
def meshChangedBlock (inp : StepInput) (it : OuterIter) : Exec Unit := do
  invoke it.ghUpdate
  ifThen inp.isAdaptive (ScopedCpu .remap (invoke it.remap))
  ScopedCpu .mrf (invoke it.mrfUpdate)
  ifThen inp.correctPhi (correctPhiBlock it)
  ifThen inp.checkMeshCourantNo (invoke it.meshCourantNo)

/-- Lines 110-196: the mesh adaptation gate. -/
def meshGate (inp : StepInput) (it : OuterIter) : Exec Unit :=
  ifThen (it.firstIter || inp.moveMeshOuterCorrectors) (do
    ifThen inp.isAdaptive (ScopedCpu .reconst (invoke it.reconstruct))
    ScopedCpu .meshUpd (invoke it.meshUpdate)
    ifThen it.meshChanging (meshChangedBlock inp it))

/-- Lines 217-251: what follows the mixture update in one pass; `continue` leaves
the pass when the flow is frozen. -/
def momentumPressureCoupler (it : OuterIter) : Exec Unit :=
  if it.frozenFlow then
    pure ()
  else do
    momentumPredictor it.uEqn
    pressureLoop it.pEqn
    ifThen it.turbCorr (ScopedCpu .turb (invoke it.turbulenceCorrect))

/-- Lines 108-252: one pass through the body of `while (pimple.loop())`. -/
def outerIteration (inp : StepInput) (it : OuterIter) : Exec Unit := do
  invoke it.loopTest
  meshGate inp it
  invoke it.alphaControls
  ScopedCpu .alpha (invoke it.alphaEqnSubCycle)
  ScopedCpu .mix (invoke it.mixtureCorrect)
  momentumPressureCoupler it

/-- Lines 108-252: `while (pimple.loop())`, without the test that ends it. -/
def pimpleLoop (inp : StepInput) : List OuterIter → Exec Unit
  | [] => pure ()
  | it :: its => do
    outerIteration inp it
    pimpleLoop inp its

/-- What lines 266-272 read off: the PIMPLE-loop time, the accumulators, and the
step total. -/
structure Report where
  tPIMPLE : Nat
  acc : StepProfile
  tTotal : Nat
  deriving DecidableEq, Repr

/-- Lines 89-91: the twelve accumulators are declared and set to `0.0`. -/
def declareAccumulators : Exec Unit := fun m => (some (), { m with acc := {} })

/-- Reading all twelve accumulators (lines 267-270 and 283-294). -/
def readAccumulators : Exec StepProfile := fun m => (some m.acc, m)

/-- Lines 88-272: one pass through the body of `while (runTime.run())`, up to
the point where the report has all its numbers. -/
def timeStep (inp : StepInput) : Exec Report := do
  let tStep ← cpuTime
  declareAccumulators
  ScopedCpu .ctrl (invoke inp.controls)
  invoke inp.advanceTime
  let tPIMPLE ← cpuTime
  pimpleLoop inp inp.outer
  invoke inp.loopExit
  ScopedCpu .write (invoke inp.write)
  invoke inp.printExecutionTime
  let ePIMPLE ← elapsedCpuTime tPIMPLE
  invoke inp.pimpleLine
  let acc ← readAccumulators
  let tTotal ← elapsedCpuTime tStep
  pure { tPIMPLE := ePIMPLE, acc := acc, tTotal := tTotal }

/-! ## The report -/

/-- Division of two `double`s, with a zero divisor made observable as `none`. -/
def divide (a b : ℚ) : Option ℚ := if b = 0 then none else some (a / b)

/-- The number printed by the helper `pct` of lines 274-280:
`tTotal > 0.0 ? (v * 100.0 / tTotal) : 0.0`. -/
def pct (tTotal v : ℚ) : Option ℚ :=
  if tTotal > 0 then divide (v * 100) tTotal else some 0

/-- The value `tTotal - accTotal` of line 298. -/
def Report.residual (r : Report) : Int := (r.tTotal : Int) - (r.acc.accTotal : Int)

/-- One line of the report block; the numbers are kept as numbers, their
rendering by `fmt8` and by the stream is not modelled. -/
inductive Line where
  | pimpleLoop (t : Nat)
  | banner
  | bucket (label : String) (v : Nat) (percent : Option ℚ)
  | sectionsTotal (v : Nat)
  | stepTotal (v : Nat)
  | residual (v : Int)
  deriving DecidableEq, Repr

/-- The text that introduces a line of the report (lines 266-298). -/
def Line.label : Line → String
  | .pimpleLoop _ => "PIMPLE loop"
  | .banner => "=== Time-step breakdown ==="
  | .bucket label _ _ => label
  | .sectionsTotal _ => "Sections total"
  | .stepTotal _ => "Time-step total"
  | .residual _ => "Residual"

/-- One line of lines 283-294. -/
def bucketLine (r : Report) (label : String) (v : Nat) : Line :=
  .bucket label v (pct r.tTotal v)

/-- Lines 266-298: the lines written to `Info`, in order. -/
def render (r : Report) : List Line :=
  [ .pimpleLoop r.tPIMPLE,
    .banner,
    bucketLine r "controls(Courant/deltaT)" r.acc.accCtrl,
    bucketLine r "reconstruct(surf)" r.acc.accReconst,
    bucketLine r "mesh.update()" r.acc.accMeshUpd,
    bucketLine r "remap(mapAlpha etc.)" r.acc.accRemap,
    bucketLine r "MRF.update()" r.acc.accMRF,
    bucketLine r "correctPhi(+relative)" r.acc.accCorrPhi,
    bucketLine r "alphaEqnSubCycle" r.acc.accAlpha,
    bucketLine r "mixture.correct()" r.acc.accMix,
    bucketLine r "UEqn(assemble+solve)" r.acc.accUEqn,
    bucketLine r "pEqn(correctors total)" r.acc.accPEqn,
    bucketLine r "turbulence.correct()" r.acc.accTurb,
    bucketLine r "write()" r.acc.accWrite,
    .sectionsTotal r.acc.accTotal,
    .stepTotal r.tTotal,
    .residual r.residual ]

/-- The accumulator values shown by the bucket lines, in the order of the lines. -/
def bucketValues (ls : List Line) : List Nat :=
  ls.filterMap (fun l => match l with
    | .bucket _ v _ => some v
    | _ => none)

/-- The percentages shown by the bucket lines, in the order of the lines. -/
def percentages (ls : List Line) : List (Option ℚ) :=
  ls.filterMap (fun l => match l with
    | .bucket _ _ p => some p
    | _ => none)

/-- The sum of a list of percentages, `none` if one of them is a failed division. -/
def sumPercent : List (Option ℚ) → Option ℚ
  | [] => some 0
  | none :: _ => none
  | some p :: ps => (sumPercent ps).map (fun s => p + s)

/-! ## What each accumulator is expected to hold -/

/-- No collaborator of the pass throws. -/
def OuterIter.noThrow (it : OuterIter) : Bool :=
  !it.loopTest.throws && !it.reconstruct.throws && !it.meshUpdate.throws &&
  !it.ghUpdate.throws && !it.remap.throws && !it.mrfUpdate.throws &&
  !it.phiAbs.throws && !it.correctPhiH.throws && !it.makeRelative.throws &&
  !it.mixtureCorrectPhi.throws && !it.meshCourantNo.throws && !it.alphaControls.throws &&
  !it.alphaEqnSubCycle.throws && !it.mixtureCorrect.throws && !it.uEqn.throws &&
  it.pEqn.all (fun c => !c.throws) && !it.turbulenceCorrect.throws

/-- No collaborator of the step throws. -/
def StepInput.noThrow (inp : StepInput) : Bool :=
  !inp.controls.throws && !inp.advanceTime.throws && inp.outer.all OuterIter.noThrow &&
  !inp.loopExit.throws && !inp.write.throws && !inp.printExecutionTime.throws &&
  !inp.pimpleLine.throws

/-- The pass enters the mesh gate (line 110). -/
def gateEntered (inp : StepInput) (it : OuterIter) : Bool :=
  it.firstIter || inp.moveMeshOuterCorrectors

/-- The pass enters the mesh gate and finds the mesh changed (lines 110, 131). -/
def meshChanged (inp : StepInput) (it : OuterIter) : Bool :=
  gateEntered inp it && it.meshChanging

/-- The sum of `f` over the passes that satisfy `sel`. -/
def sumOver (sel : OuterIter → Bool) (f : OuterIter → Nat) (its : List OuterIter) : Nat :=
  ((its.filter sel).map f).sum

/-- The accumulators as the specification describes them: each is the sum of
the durations of all invocations of its stage during the step.  For each
accumulator this names the passes in which its stage is invoked and the time one
invocation takes. -/
def expectedProfile (inp : StepInput) : StepProfile where
  accCtrl := inp.controls.dur
  accReconst :=
    sumOver (fun it => gateEntered inp it && inp.isAdaptive) (fun it => it.reconstruct.dur)
      inp.outer
  accMeshUpd := sumOver (gateEntered inp) (fun it => it.meshUpdate.dur) inp.outer
  accRemap :=
    sumOver (fun it => meshChanged inp it && inp.isAdaptive) (fun it => it.remap.dur) inp.outer
  accMRF := sumOver (meshChanged inp) (fun it => it.mrfUpdate.dur) inp.outer
  accCorrPhi :=
    sumOver (fun it => meshChanged inp it && inp.correctPhi)
      (fun it => it.correctPhiH.dur + it.makeRelative.dur + it.mixtureCorrectPhi.dur) inp.outer
  accAlpha := sumOver (fun _ => true) (fun it => it.alphaEqnSubCycle.dur) inp.outer
  accMix := sumOver (fun _ => true) (fun it => it.mixtureCorrect.dur) inp.outer
  accUEqn := sumOver (fun it => !it.frozenFlow) (fun it => it.uEqn.dur) inp.outer
  accPEqn :=
    sumOver (fun it => !it.frozenFlow) (fun it => (it.pEqn.map Call.dur).sum) inp.outer
  accTurb :=
    sumOver (fun it => !it.frozenFlow && it.turbCorr) (fun it => it.turbulenceCorrect.dur)
      inp.outer
  accWrite := inp.write.dur

/-- The time of the remap stage in a pass whose mesh changed: the stage is run
on an adaptive mesh only (line 136). -/
def remapCost (inp : StepInput) (it : OuterIter) : Nat :=
  if inp.isAdaptive then it.remap.dur else 0

/-- The time of the flux-correction stage in a pass whose mesh changed: the
stage is run when `correctPhi` is set only (line 169). -/
def fluxCost (inp : StepInput) (it : OuterIter) : Nat :=
  if inp.correctPhi then
    it.correctPhiH.dur + it.makeRelative.dur + it.mixtureCorrectPhi.dur
  else 0

/-- The elapsed time of the whole flux-correction sequence: absolute flux,
flux correction, relative flux, mixture resynchronisation. -/
def fluxCorrectSequence (it : OuterIter) : Nat :=
  it.phiAbs.dur + it.correctPhiH.dur + it.makeRelative.dur + it.mixtureCorrectPhi.dur

/-- A property of the value a statement sequence returns and of the state it
returns in. -/
def Final {α : Type} (P : α → Machine → Prop) (x : Exec α) : Prop :=
  ∀ m a m1, x m = (some a, m1) → P a m1

/-- Componentwise sum of two sets of accumulator values. -/
def StepProfile.plus (p q : StepProfile) : StepProfile where
  accCtrl := p.accCtrl + q.accCtrl
  accReconst := p.accReconst + q.accReconst
  accMeshUpd := p.accMeshUpd + q.accMeshUpd
  accRemap := p.accRemap + q.accRemap
  accMRF := p.accMRF + q.accMRF
  accCorrPhi := p.accCorrPhi + q.accCorrPhi
  accAlpha := p.accAlpha + q.accAlpha
  accMix := p.accMix + q.accMix
  accUEqn := p.accUEqn + q.accUEqn
  accPEqn := p.accPEqn + q.accPEqn
  accTurb := p.accTurb + q.accTurb
  accWrite := p.accWrite + q.accWrite

/-- What one pass of the PIMPLE loop adds to each accumulator when nothing
throws. -/
def charge (inp : StepInput) (it : OuterIter) : StepProfile where
  accCtrl := 0
  accReconst := if gateEntered inp it && inp.isAdaptive then it.reconstruct.dur else 0
  accMeshUpd := if gateEntered inp it then it.meshUpdate.dur else 0
  accRemap := if meshChanged inp it && inp.isAdaptive then it.remap.dur else 0
  accMRF := if meshChanged inp it then it.mrfUpdate.dur else 0
  accCorrPhi :=
    if meshChanged inp it && inp.correctPhi then
      it.correctPhiH.dur + it.makeRelative.dur + it.mixtureCorrectPhi.dur
    else 0
  accAlpha := it.alphaEqnSubCycle.dur
  accMix := it.mixtureCorrect.dur
  accUEqn := if !it.frozenFlow then it.uEqn.dur else 0
  accPEqn := if !it.frozenFlow then (it.pEqn.map Call.dur).sum else 0
  accTurb := if !it.frozenFlow && it.turbCorr then it.turbulenceCorrect.dur else 0
  accWrite := 0

/-- The statement sequence completes from every state and adds `p` to the
accumulators. -/
def Charges {α : Type} (x : Exec α) (p : StepProfile) : Prop :=
  ∀ m, ∃ a m1, x m = (some a, m1) ∧ m1.acc = m.acc.plus p

/-- What the whole PIMPLE loop adds to each accumulator when nothing throws. -/
def chargeAll (inp : StepInput) : List OuterIter → StepProfile
  | [] => {}
  | it :: its => (charge inp it).plus (chargeAll inp its)

/-- What `timeStep` does once `tStep` has been started and the accumulators have
been declared. -/
def afterDeclarations (inp : StepInput) (tStep : Nat) : Exec Report := do
  ScopedCpu .ctrl (invoke inp.controls)
  invoke inp.advanceTime
  let tPIMPLE ← cpuTime
  pimpleLoop inp inp.outer
  invoke inp.loopExit
  ScopedCpu .write (invoke inp.write)
  invoke inp.printExecutionTime
  let ePIMPLE ← elapsedCpuTime tPIMPLE
  invoke inp.pimpleLine
  let acc ← readAccumulators
  let tTotal ← elapsedCpuTime tStep
  pure { tPIMPLE := ePIMPLE, acc := acc, tTotal := tTotal }

/-! ## Concrete steps -/

/-- The step of the end-to-end scenario: two passes, the mesh changes in the first
only; times in milliseconds. -/
def endToEnd : StepInput where
  isAdaptive := true
  correctPhi := true
  controls := { dur := 1 }
  outer :=
    [ { firstIter := true, meshUpdate := { dur := 15 }, meshChanging := true,
        remap := { dur := 5 }, correctPhiH := { dur := 8 }, uEqn := { dur := 20 },
        pEqn := [{ dur := 5 }, { dur := 5 }, { dur := 5 }] },
      { uEqn := { dur := 20 }, pEqn := [{ dur := 5 }, { dur := 5 }, { dur := 5 }] } ]
  write := { dur := 2 }

/-- The numbers the report of the end-to-end scenario is expected to show. -/
def endToEndReport : Report where
  tPIMPLE := 100
  acc := { accCtrl := 1, accMeshUpd := 15, accRemap := 5, accCorrPhi := 8, accUEqn := 40,
           accPEqn := 30, accWrite := 2 }
  tTotal := 101

/-- A step of two passes that both enter the mesh gate, with a mesh update of 15
ms each. -/
def twoUpdates : StepInput where
  moveMeshOuterCorrectors := true
  outer :=
    [ { firstIter := true, meshUpdate := { dur := 15 }, uEqn := { dur := 20 },
        pEqn := [{ dur := 5 }, { dur := 6 }] },
      { meshUpdate := { dur := 15 }, uEqn := { dur := 20 }, pEqn := [{ dur := 7 }] } ]

/-- A step of two passes on a moving mesh that is not adaptive. -/
def staticMesh : StepInput where
  moveMeshOuterCorrectors := true
  outer :=
    [ { firstIter := true, reconstruct := { dur := 9 }, meshUpdate := { dur := 4 },
        meshChanging := true, remap := { dur := 9 } },
      { reconstruct := { dur := 9 }, meshUpdate := { dur := 6 }, meshChanging := true,
        remap := { dur := 9 } } ]

/-- A step of two passes that both enter the mesh gate; the mesh changes in the
first only. -/
def changeOnFirst : StepInput where
  isAdaptive := true
  correctPhi := true
  moveMeshOuterCorrectors := true
  outer :=
    [ { firstIter := true, meshChanging := true, remap := { dur := 5 },
        correctPhiH := { dur := 8 } },
      { remap := { dur := 50 }, correctPhiH := { dur := 80 } } ]

/-- A pass that enters the mesh gate and finds the mesh changed; computing the
absolute flux takes 3 ticks. -/
def fluxPass : OuterIter where
  firstIter := true
  meshChanging := true
  phiAbs := { dur := 3 }
  correctPhiH := { dur := 8 }
  makeRelative := { dur := 2 }
  mixtureCorrectPhi := { dur := 1 }
  mixtureCorrect := { dur := 4 }

/-- A step with flux correction enabled whose only pass is `fluxPass`. -/
def fluxStep : StepInput where
  correctPhi := true
  outer := [fluxPass]

/-! ## Running statements -/

theorem pure_run {α : Type} (a : α) (m : Machine) : (pure a : Exec α) m = (some a, m) := rfl

theorem bind_run {α β : Type} (x : Exec α) (f : α → Exec β) (m : Machine) :
    (x >>= f) m = Exec.bind x f m := rfl

theorem bind_run_some {α β : Type} (x : Exec α) (f : α → Exec β) (m m1 : Machine) (a : α)
    (h : x m = (some a, m1)) : (x >>= f) m = f a m1 := by
  simp [bind_run, Exec.bind, h]

theorem timeStep_eq (inp : StepInput) (m : Machine) :
    timeStep inp m = afterDeclarations inp m.cpu { m with acc := {} } := rfl

theorem Final.of_continuation {α β : Type} {P : β → Machine → Prop} {x : Exec α}
    {f : α → Exec β}
    (hf : ∀ a, Final P (f a)) : Final P (x >>= f) := by
  intro m b m2 h
  rw [bind_run] at h
  unfold Exec.bind at h
  rcases hxm : x m with ⟨_ | a, m1⟩
  · rw [hxm] at h
    simp at h
  · rw [hxm] at h
    exact hf a m1 b m2 h

/-- The report carries the accumulators as they stand and the time elapsed
since `tStep` was started. -/
theorem final_afterDeclarations (inp : StepInput) (tStep : Nat) :
    Final (fun r m1 => r.acc = m1.acc ∧ r.tTotal = m1.cpu - tStep)
      (afterDeclarations inp tStep) := by
  unfold afterDeclarations
  refine Final.of_continuation (fun _ => ?_)
  refine Final.of_continuation (fun _ => ?_)
  refine Final.of_continuation (fun _ => ?_)
  refine Final.of_continuation (fun _ => ?_)
  refine Final.of_continuation (fun _ => ?_)
  refine Final.of_continuation (fun _ => ?_)
  refine Final.of_continuation (fun _ => ?_)
  refine Final.of_continuation (fun _ => ?_)
  refine Final.of_continuation (fun _ => ?_)
  intro m r m1 h
  simp only [bind_run, Exec.bind, readAccumulators, elapsedCpuTime, pure_run, Prod.mk.injEq,
    Option.some.injEq] at h
  obtain ⟨h1, h2⟩ := h
  subst h1 h2
  exact ⟨rfl, rfl⟩

theorem StepProfile.plus_zero (p : StepProfile) : p.plus {} = p := by
  ext <;> simp [StepProfile.plus]

theorem StepProfile.plus_assoc (p q r : StepProfile) :
    (p.plus q).plus r = p.plus (q.plus r) := by
  ext <;> simp [StepProfile.plus, Nat.add_assoc]

theorem StepProfile.add_eq_plus (p : StepProfile) (b : Bucket) (e : Nat) :
    p.add b e = p.plus (({} : StepProfile).add b e) := by
  cases b <;> ext <;> simp [StepProfile.plus, StepProfile.add]

theorem charges_pure {α : Type} (a : α) : Charges (pure a : Exec α) {} := by
  intro m
  exact ⟨a, m, rfl, (StepProfile.plus_zero _).symm⟩

theorem charges_cpuTime : Charges cpuTime {} := by
  intro m
  exact ⟨m.cpu, m, rfl, (StepProfile.plus_zero _).symm⟩

theorem charges_elapsedCpuTime (t : Nat) : Charges (elapsedCpuTime t) {} := by
  intro m
  exact ⟨m.cpu - t, m, rfl, (StepProfile.plus_zero _).symm⟩

theorem charges_readAccumulators : Charges readAccumulators {} := by
  intro m
  exact ⟨m.acc, m, rfl, (StepProfile.plus_zero _).symm⟩

theorem charges_invoke (c : Call) (h : c.throws = false) : Charges (invoke c) {} := by
  intro m
  exact ⟨(), ⟨m.cpu + c.dur, m.acc⟩, by simp [invoke, h], (StepProfile.plus_zero _).symm⟩

theorem Charges.then_value {α β : Type} {x : Exec α} {f : α → Exec β} {p q : StepProfile}
    (hx : Charges x p) (hf : ∀ a, Charges (f a) q) : Charges (x >>= f) (p.plus q) := by
  intro m
  obtain ⟨a, m1, h1, e1⟩ := hx m
  obtain ⟨b, m2, h2, e2⟩ := hf a m1
  refine ⟨b, m2, ?_, ?_⟩
  · rw [bind_run_some _ _ _ _ _ h1, h2]
  · rw [e2, e1, StepProfile.plus_assoc]

theorem Charges.then_charges {α β : Type} {x : Exec α} {y : Exec β} {p q : StepProfile}
    (hx : Charges x p) (hy : Charges y q) : Charges (x >>= fun _ => y) (p.plus q) :=
  hx.then_value (fun _ => hy)

theorem charges_ifThen (c : Bool) {x : Exec Unit} {p : StepProfile} (hx : Charges x p) :
    Charges (ifThen c x) (if c then p else {}) := by
  cases c
  · exact charges_pure ()
  · exact hx

/-- A scoped timer around one collaborator charges that collaborator's time. -/
theorem charges_ScopedCpu_invoke (b : Bucket) (c : Call) (h : c.throws = false) :
    Charges (ScopedCpu b (invoke c)) (({} : StepProfile).add b c.dur) := by
  intro m
  refine ⟨(), ⟨m.cpu + c.dur, m.acc.add b c.dur⟩, by simp [ScopedCpu, invoke, h], ?_⟩
  exact StepProfile.add_eq_plus _ _ _

theorem charges_correctPhiBlock (it : OuterIter) (h1 : it.phiAbs.throws = false)
    (h2 : it.correctPhiH.throws = false) (h3 : it.makeRelative.throws = false)
    (h4 : it.mixtureCorrectPhi.throws = false) :
    Charges (correctPhiBlock it)
      (({} : StepProfile).add .corrPhi
        (it.correctPhiH.dur + it.makeRelative.dur + it.mixtureCorrectPhi.dur)) := by
  intro m
  refine ⟨(), ⟨m.cpu + it.phiAbs.dur + it.correctPhiH.dur + it.makeRelative.dur
      + it.mixtureCorrectPhi.dur,
    m.acc.add .corrPhi (it.correctPhiH.dur + it.makeRelative.dur + it.mixtureCorrectPhi.dur)⟩,
    ?_, ?_⟩
  swap
  · exact StepProfile.add_eq_plus m.acc .corrPhi _
  simp only [correctPhiBlock, bind_run, Exec.bind, ScopedCpu, invoke, h1, h2, h3, h4,
    Bool.false_eq_true, if_false, Prod.mk.injEq, true_and, Machine.mk.injEq]
  congr 1
  omega

theorem charges_momentumPredictor (c : Call) (h : c.throws = false) :
    Charges (momentumPredictor c) (({} : StepProfile).add .uEqn c.dur) := by
  intro m
  refine ⟨(), ⟨m.cpu + c.dur, m.acc.add .uEqn c.dur⟩, ?_, ?_⟩
  swap
  · exact StepProfile.add_eq_plus m.acc .uEqn c.dur
  simp [momentumPredictor, bind_run, Exec.bind, cpuTime, invoke, elapsedCpuTime, accumulate, h]

theorem charges_pressureCorrector (c : Call) (h : c.throws = false) :
    Charges (pressureCorrector c) (({} : StepProfile).add .pEqn c.dur) := by
  intro m
  refine ⟨(), ⟨m.cpu + c.dur, m.acc.add .pEqn c.dur⟩, ?_, ?_⟩
  swap
  · exact StepProfile.add_eq_plus m.acc .pEqn c.dur
  simp [pressureCorrector, bind_run, Exec.bind, cpuTime, invoke, elapsedCpuTime, accumulate, h]

theorem charges_pressureLoop (cs : List Call) (h : cs.all (fun c => !c.throws) = true) :
    Charges (pressureLoop cs) (({} : StepProfile).add .pEqn (cs.map Call.dur).sum) := by
  induction cs with
  | nil =>
    have e : (({} : StepProfile).add .pEqn (([] : List Call).map Call.dur).sum) = {} := by
      simp [StepProfile.add]
    rw [e]
    exact charges_pure ()
  | cons c cs ih =>
    simp only [List.all_cons, Bool.and_eq_true, Bool.not_eq_eq_eq_not, Bool.not_true] at h
    have e : (({} : StepProfile).add .pEqn ((c :: cs).map Call.dur).sum) =
        (({} : StepProfile).add .pEqn c.dur).plus
          (({} : StepProfile).add .pEqn (cs.map Call.dur).sum) := by
      ext <;> simp [StepProfile.add, StepProfile.plus]
    rw [e]
    unfold pressureLoop
    exact (charges_pressureCorrector c h.1).then_charges (ih h.2)

set_option maxHeartbeats 4000000 in
/-- One pass of the PIMPLE loop in which nothing throws completes and adds
`charge` to the accumulators. -/
theorem charges_outerIteration (inp : StepInput) (it : OuterIter) (h : it.noThrow = true) :
    Charges (outerIteration inp it) (charge inp it) := by
  simp only [OuterIter.noThrow, Bool.and_eq_true, Bool.not_eq_eq_eq_not, Bool.not_true] at h
  obtain ⟨⟨⟨⟨⟨⟨⟨⟨⟨⟨⟨⟨⟨⟨⟨⟨h1, h2⟩, h3⟩, h4⟩, h5⟩, h6⟩, h7⟩, h8⟩, h9⟩, h10⟩, h11⟩, h12⟩, h13⟩,
    h14⟩, h15⟩, h16⟩, h17⟩ := h
  have hBlock : Charges (meshChangedBlock inp it) _ :=
    (charges_invoke _ h4).then_charges
      ((charges_ifThen inp.isAdaptive (charges_ScopedCpu_invoke .remap _ h5)).then_charges
        ((charges_ScopedCpu_invoke .mrf _ h6).then_charges
          ((charges_ifThen inp.correctPhi (charges_correctPhiBlock it h7 h8 h9 h10)).then_charges
            (charges_ifThen inp.checkMeshCourantNo (charges_invoke _ h11)))))
  have hGate : Charges (meshGate inp it) _ :=
    charges_ifThen (it.firstIter || inp.moveMeshOuterCorrectors)
      ((charges_ifThen inp.isAdaptive (charges_ScopedCpu_invoke .reconst _ h2)).then_charges
        ((charges_ScopedCpu_invoke .meshUpd _ h3).then_charges
          (charges_ifThen it.meshChanging hBlock)))
  have hCoupler : Charges (momentumPressureCoupler it)
      (if it.frozenFlow then {} else
        (({} : StepProfile).add .uEqn it.uEqn.dur).plus
          ((({} : StepProfile).add .pEqn (it.pEqn.map Call.dur).sum).plus
            (if it.turbCorr then ({} : StepProfile).add .turb it.turbulenceCorrect.dur
              else {}))) := by
    unfold momentumPressureCoupler
    cases it.frozenFlow
    · exact (charges_momentumPredictor _ h15).then_charges
        ((charges_pressureLoop _ h16).then_charges
          (charges_ifThen it.turbCorr (charges_ScopedCpu_invoke .turb _ h17)))
    · exact charges_pure ()
  have hAll : Charges (outerIteration inp it) _ :=
    (charges_invoke _ h1).then_charges
      (hGate.then_charges
        ((charges_invoke _ h12).then_charges
          ((charges_ScopedCpu_invoke .alpha _ h13).then_charges
            ((charges_ScopedCpu_invoke .mix _ h14).then_charges hCoupler))))
  convert hAll using 1
  cases hf : it.firstIter <;> cases hm : inp.moveMeshOuterCorrectors <;>
    cases ha : inp.isAdaptive <;> cases hc : it.meshChanging <;>
    cases hp : inp.correctPhi <;> cases hz : it.frozenFlow <;> cases ht : it.turbCorr <;>
    simp [charge, gateEntered, meshChanged, StepProfile.plus, StepProfile.add, hf, hm, ha, hc,
      hp, hz, ht]

theorem charges_pimpleLoop (inp : StepInput) (its : List OuterIter)
    (h : its.all OuterIter.noThrow = true) : Charges (pimpleLoop inp its) (chargeAll inp its) := by
  induction its with
  | nil => exact charges_pure ()
  | cons it its ih =>
    simp only [List.all_cons, Bool.and_eq_true] at h
    unfold pimpleLoop chargeAll
    exact (charges_outerIteration inp it h.1).then_charges (ih h.2)

theorem sumOver_cons (sel : OuterIter → Bool) (f : OuterIter → Nat) (it : OuterIter)
    (its : List OuterIter) :
    sumOver sel f (it :: its) = (if sel it then f it else 0) + sumOver sel f its := by
  unfold sumOver
  cases h : sel it <;> simp [List.filter_cons, h]

/-- The sums the loop leaves in the accumulators, written with `sumOver`. -/
theorem chargeAll_eq (inp : StepInput) (its : List OuterIter) :
    chargeAll inp its =
      { accCtrl := 0
        accReconst :=
          sumOver (fun it => gateEntered inp it && inp.isAdaptive) (fun it => it.reconstruct.dur)
            its
        accMeshUpd := sumOver (gateEntered inp) (fun it => it.meshUpdate.dur) its
        accRemap :=
          sumOver (fun it => meshChanged inp it && inp.isAdaptive) (fun it => it.remap.dur) its
        accMRF := sumOver (meshChanged inp) (fun it => it.mrfUpdate.dur) its
        accCorrPhi :=
          sumOver (fun it => meshChanged inp it && inp.correctPhi)
            (fun it => it.correctPhiH.dur + it.makeRelative.dur + it.mixtureCorrectPhi.dur) its
        accAlpha := sumOver (fun _ => true) (fun it => it.alphaEqnSubCycle.dur) its
        accMix := sumOver (fun _ => true) (fun it => it.mixtureCorrect.dur) its
        accUEqn := sumOver (fun it => !it.frozenFlow) (fun it => it.uEqn.dur) its
        accPEqn := sumOver (fun it => !it.frozenFlow) (fun it => (it.pEqn.map Call.dur).sum) its
        accTurb :=
          sumOver (fun it => !it.frozenFlow && it.turbCorr) (fun it => it.turbulenceCorrect.dur)
            its
        accWrite := 0 } := by
  induction its with
  | nil => rfl
  | cons it its ih =>
    unfold chargeAll
    rw [ih]
    ext <;> simp [StepProfile.plus, charge, sumOver_cons]

theorem charges_afterDeclarations (inp : StepInput) (tStep : Nat) (h : inp.noThrow = true) :
    Charges (afterDeclarations inp tStep) (expectedProfile inp) := by
  simp only [StepInput.noThrow, Bool.and_eq_true, Bool.not_eq_eq_eq_not, Bool.not_true] at h
  obtain ⟨⟨⟨⟨⟨⟨h1, h2⟩, h3⟩, h4⟩, h5⟩, h6⟩, h7⟩ := h
  have hAll : Charges (afterDeclarations inp tStep) _ :=
    (charges_ScopedCpu_invoke .ctrl _ h1).then_charges
      ((charges_invoke _ h2).then_charges
        (charges_cpuTime.then_value (fun tPIMPLE =>
          (charges_pimpleLoop inp inp.outer h3).then_charges
            ((charges_invoke _ h4).then_charges
              ((charges_ScopedCpu_invoke .write _ h5).then_charges
                ((charges_invoke _ h6).then_charges
                  ((charges_elapsedCpuTime tPIMPLE).then_value (fun ePIMPLE =>
                    (charges_invoke _ h7).then_charges
                      (charges_readAccumulators.then_value (fun acc =>
                        (charges_elapsedCpuTime tStep).then_value (fun tTotal =>
                          charges_pure
                            ({ tPIMPLE := ePIMPLE, acc := acc, tTotal := tTotal } : Report)
                            )))))))))))
  convert hAll using 1
  rw [chargeAll_eq]
  ext <;> simp [StepProfile.plus, StepProfile.add, expectedProfile]

/-- A step in which nothing throws reaches its report, and the report shows the
expected accumulator values. -/
theorem timeStep_noThrow (inp : StepInput) (m : Machine) (h : inp.noThrow = true) :
    ∃ r m1, timeStep inp m = (some r, m1) ∧ r.acc = expectedProfile inp := by
  obtain ⟨r, m1, hrun, hacc⟩ := charges_afterDeclarations inp m.cpu h { m with acc := {} }
  refine ⟨r, m1, by rw [timeStep_eq, hrun], ?_⟩
  rw [(final_afterDeclarations inp m.cpu _ _ _ hrun).1, hacc]
  ext <;> simp [StepProfile.plus]

/-! ## The claims -/

/-- Claim C4.  In a step without errors the report shows `accRemap` and
`accCorrPhi` equal to the sum, over exactly the passes that entered the mesh gate
and found the mesh changed, of the time of the remap stage, respectively of the
flux-correction stage, in that pass (`remapCost`, `fluxCost`: a stage that is
not run costs nothing).  If the mesh changes in no pass both are 0; if it
changes in the first pass only both hold the cost of the first pass alone. -/
theorem remap_and_flux_buckets (inp : StepInput) (m : Machine) (h : inp.noThrow = true) :
    ∃ r m1, timeStep inp m = (some r, m1) ∧
      r.acc.accRemap = sumOver (meshChanged inp) (remapCost inp) inp.outer ∧
      r.acc.accCorrPhi = sumOver (meshChanged inp) (fluxCost inp) inp.outer ∧
      ((∀ it ∈ inp.outer, it.meshChanging = false) →
        r.acc.accRemap = 0 ∧ r.acc.accCorrPhi = 0) ∧
      (∀ it1 rest, inp.outer = it1 :: rest → it1.firstIter = true → it1.meshChanging = true →
        (∀ it ∈ rest, it.meshChanging = false) →
        r.acc.accRemap = remapCost inp it1 ∧ r.acc.accCorrPhi = fluxCost inp it1) := by
  obtain ⟨r, m1, hrun, hacc⟩ := timeStep_noThrow inp m h
  have hsplit : ∀ (c : Bool) (f : OuterIter → Nat) (its : List OuterIter),
      sumOver (fun it => meshChanged inp it && c) f its =
        sumOver (meshChanged inp) (fun it => if c then f it else 0) its := by
    intro c f its
    induction its with
    | nil => rfl
    | cons it its ih =>
      rw [sumOver_cons, sumOver_cons, ih]
      cases c <;> simp
  have hR : r.acc.accRemap = sumOver (meshChanged inp) (remapCost inp) inp.outer := by
    rw [hacc]
    exact hsplit _ _ _
  have hF : r.acc.accCorrPhi = sumOver (meshChanged inp) (fluxCost inp) inp.outer := by
    rw [hacc]
    exact hsplit _ _ _
  have hzero : ∀ (f : OuterIter → Nat) (its : List OuterIter),
      (∀ it ∈ its, it.meshChanging = false) → sumOver (meshChanged inp) f its = 0 := by
    intro f its hits
    induction its with
    | nil => rfl
    | cons it its ih =>
      rw [sumOver_cons, ih (fun x hx => hits x (List.mem_cons_of_mem _ hx))]
      simp [meshChanged, hits it (List.mem_cons_self _ _)]
  refine ⟨r, m1, hrun, hR, hF, ?_, ?_⟩
  · intro hnever
    exact ⟨by rw [hR, hzero _ _ hnever], by rw [hF, hzero _ _ hnever]⟩
  · intro it1 rest hout h1 hc hrest
    rw [hR, hF, hout, sumOver_cons, sumOver_cons, hzero _ _ hrest, hzero _ _ hrest]
    simp [meshChanged, gateEntered, h1, hc]

/-- Claim C4 at a step of two passes whose mesh changes in the first only: the
remap and flux-correction accumulators hold the 5 and 8 ticks of the first pass,
nothing of the 50 and 80 ticks the second would have cost. -/
theorem remap_and_flux_buckets_witness :
    changeOnFirst.noThrow = true ∧
    ∃ r m1, timeStep changeOnFirst ⟨0, {}⟩ = (some r, m1) ∧
      r.acc.accRemap = 5 ∧ r.acc.accCorrPhi = 8 := by
  refine ⟨by decide, ?_⟩
  obtain ⟨r, m1, hrun, _, _, _, h1⟩ := remap_and_flux_buckets changeOnFirst ⟨0, {}⟩ (by decide)
  exact ⟨r, m1, hrun, h1 _ _ rfl rfl rfl (by decide)⟩

/-- Claim C5.  In a step without errors every accumulator shown by the report is
the sum of the durations of all invocations of its stage during the step
(`expectedProfile`): for instance `accMeshUpd` is the sum of the durations of
`mesh.update()` over the passes that enter the gate, and `accPEqn` the sum of the
durations of all pressure correctors of all passes that are not frozen. -/
theorem buckets_accumulate_additively (inp : StepInput) (m : Machine) (h : inp.noThrow = true) :
    ∃ r m1, timeStep inp m = (some r, m1) ∧ r.acc = expectedProfile inp :=
  timeStep_noThrow inp m h

/-- Claim C5 at a step of two passes with a mesh update of 15 ms each: the
mesh-update accumulator shows exactly 30 ms, the pressure accumulator the sum
5 + 6 + 7 of its three correctors. -/
theorem buckets_accumulate_additively_witness :
    twoUpdates.noThrow = true ∧
    ∃ r m1, timeStep twoUpdates ⟨0, {}⟩ = (some r, m1) ∧
      r.acc = { accMeshUpd := 30, accUEqn := 40, accPEqn := 18 } :=
  ⟨by decide, buckets_accumulate_additively twoUpdates ⟨0, {}⟩ (by decide)⟩

/-- Claim C6.  The end-to-end scenario (control 1 ms; first pass: mesh update 15,
remap 5, flux correction 8, momentum 20, three pressure correctors of 5; second
pass: no mesh change, momentum 20, three pressure correctors of 5; write 2;
everything else 0), started at any clock reading, reports control 1, mesh update
15, remap 5, flux correction 8, momentum 40, pressure 30, write 2 and 0 for the
other accumulators, with a step total of 101; the sections total is 101, the
residual is 0, and the percentages of the twelve bucket lines sum to 100. -/
theorem end_to_end_scenario (m : Machine) :
    timeStep endToEnd m = (some endToEndReport, ⟨m.cpu + 101, endToEndReport.acc⟩) ∧
    endToEndReport.acc.accTotal = 101 ∧
    endToEndReport.residual = 0 ∧
    sumPercent (percentages (render endToEndReport)) = some 100 := by
  refine ⟨?_, by decide, by decide, ?_⟩
  · simp [timeStep, endToEnd, endToEndReport, bind_run, Exec.bind, pure_run, cpuTime,
      declareAccumulators, ScopedCpu, invoke, pimpleLoop, outerIteration, meshGate,
      meshChangedBlock, correctPhiBlock, ifThen, momentumPressureCoupler, momentumPredictor,
      pressureLoop, pressureCorrector, elapsedCpuTime, accumulate, readAccumulators,
      StepProfile.add]
    omega
  · norm_num [percentages, render, bucketLine, endToEndReport, sumPercent, pct, divide]

/-- Claim C7.  For every bucket value `v` and step total `tTotal` the helper `pct`
yields `100 * v / tTotal` when `tTotal > 0` and `0` otherwise, and never a failed
division; with `tTotal = 0` the percentage of every bucket line of the report is
0. -/
theorem pct_guarded (tTotal v : ℚ) (tPIMPLE : Nat) (acc : StepProfile) :
    pct tTotal v = some (if tTotal > 0 then 100 * v / tTotal else 0) ∧
    pct 0 v = some 0 ∧
    percentages (render { tPIMPLE := tPIMPLE, acc := acc, tTotal := 0 }) =
      List.replicate 12 (some 0) := by
  refine ⟨?_, ?_, ?_⟩
  · unfold pct divide
    split_ifs with h1 h2
    · exact absurd h2 (ne_of_gt h1)
    · rw [mul_comm]
    · rfl
  · simp [pct]
  · simp [percentages, render, bucketLine, pct, List.replicate]

/-- Claim C8.  In a step without errors on a mesh that is not a
`dynamicRefineFvMesh`, the report shows `accReconst` and `accRemap` equal to 0,
and `accMeshUpd` equal to the sum of the durations of `mesh.update()` over all
passes that enter the gate (first pass, or mesh motion forced). -/
theorem static_mesh_buckets (inp : StepInput) (m : Machine) (h : inp.noThrow = true)
    (ha : inp.isAdaptive = false) :
    ∃ r m1, timeStep inp m = (some r, m1) ∧
      r.acc.accReconst = 0 ∧ r.acc.accRemap = 0 ∧
      r.acc.accMeshUpd = sumOver (gateEntered inp) (fun it => it.meshUpdate.dur) inp.outer := by
  obtain ⟨r, m1, hrun, hacc⟩ := timeStep_noThrow inp m h
  refine ⟨r, m1, hrun, ?_, ?_, ?_⟩
  · rw [hacc]
    simp [expectedProfile, sumOver, ha]
  · rw [hacc]
    simp [expectedProfile, sumOver, ha]
  · rw [hacc]
    rfl

/-- Claim C8 at a step of two passes on a moving, non-adaptive mesh with mesh
updates of 4 and 6 ticks. -/
theorem static_mesh_buckets_witness :
    staticMesh.noThrow = true ∧ staticMesh.isAdaptive = false ∧
    ∃ r m1, timeStep staticMesh ⟨0, {}⟩ = (some r, m1) ∧
      r.acc.accReconst = 0 ∧ r.acc.accRemap = 0 ∧ r.acc.accMeshUpd = 10 :=
  ⟨by decide, by decide, static_mesh_buckets staticMesh ⟨0, {}⟩ (by decide) (by decide)⟩

/-- Claim C9.  For every report, the lines written are: the PIMPLE-loop line
first, (the title line `=== Time-step breakdown ===`,) then one line for each of
the twelve accumulators in the order of their declaration, whatever their
values, and last the three lines sections total, step total, residual, in this
order, where sections total is the sum of the twelve values shown and residual is
step total minus sections total. -/
theorem report_layout (r : Report) :
    (render r).map Line.label =
      ["PIMPLE loop", "=== Time-step breakdown ===", "controls(Courant/deltaT)",
        "reconstruct(surf)", "mesh.update()", "remap(mapAlpha etc.)", "MRF.update()",
        "correctPhi(+relative)", "alphaEqnSubCycle", "mixture.correct()",
        "UEqn(assemble+solve)", "pEqn(correctors total)", "turbulence.correct()", "write()",
        "Sections total", "Time-step total", "Residual"] ∧
    (render r).head? = some (.pimpleLoop r.tPIMPLE) ∧
    bucketValues (render r) = Bucket.all.map r.acc.get ∧
    (render r).drop 14 =
      [.sectionsTotal (bucketValues (render r)).sum, .stepTotal r.tTotal,
        .residual ((r.tTotal : Int) - ((bucketValues (render r)).sum : Nat))] := by
  refine ⟨rfl, rfl, rfl, ?_⟩
  simp [render, bucketValues, bucketLine, Report.residual, StepProfile.accTotal]
  omega

/-- Claim C10 fails for the absolute flux: in a pass that enters the gate, finds
the mesh changed and corrects the flux, with 3 ticks for the absolute flux and
8 + 2 + 1 ticks for the rest of the sequence, `accCorrPhi` grows by 11, not by
the 14 ticks of the whole sequence. -/
theorem absolute_flux_not_charged :
    (outerIteration fluxStep fluxPass ⟨0, {}⟩).1 = some () ∧
    (outerIteration fluxStep fluxPass ⟨0, {}⟩).2.acc.accCorrPhi = 11 ∧
    fluxCorrectSequence fluxPass = 14 ∧
    (outerIteration fluxStep fluxPass ⟨0, {}⟩).2.acc.accCorrPhi ≠
      0 + fluxCorrectSequence fluxPass := by
  simp [fluxStep, fluxPass, fluxCorrectSequence, bind_run, Exec.bind, pure_run, cpuTime,
      ScopedCpu, invoke, outerIteration, meshGate,
      meshChangedBlock, correctPhiBlock, ifThen, momentumPressureCoupler, momentumPredictor,
      pressureLoop, pressureCorrector, elapsedCpuTime, accumulate,
      StepProfile.add]

/-- Claim C10, amended.  In every outer pass without errors that enters the mesh
gate, finds the mesh changed and has flux correction enabled, `accCorrPhi` grows
by the time of `correctPhi.H`, of `fvc::makeRelative` and of the
`mixture.correct()` of line 185 together (the absolute flux of line 173 is not
included), and `accMix` grows by the time of the `mixture.correct()` of line 212
only. -/
theorem flux_bucket_increment (inp : StepInput) (it : OuterIter) (m : Machine)
    (h : it.noThrow = true) (hg : gateEntered inp it = true) (hc : it.meshChanging = true)
    (hp : inp.correctPhi = true) :
    ∃ m1, outerIteration inp it m = (some (), m1) ∧
      m1.acc.accCorrPhi = m.acc.accCorrPhi +
        (it.correctPhiH.dur + it.makeRelative.dur + it.mixtureCorrectPhi.dur) ∧
      m1.acc.accMix = m.acc.accMix + it.mixtureCorrect.dur := by
  obtain ⟨_, m1, hrun, hacc⟩ := charges_outerIteration inp it h m
  refine ⟨m1, hrun, ?_, ?_⟩
  · rw [hacc]
    simp [StepProfile.plus, charge, meshChanged, hg, hc, hp]
  · rw [hacc]
    simp [StepProfile.plus, charge]

/-- Claim C10, amended, at the pass `fluxPass`: `accCorrPhi` grows by 8 + 2 + 1
and `accMix` by 4. -/
theorem flux_bucket_increment_witness :
    fluxPass.noThrow = true ∧ gateEntered fluxStep fluxPass = true ∧
    ∃ m1, outerIteration fluxStep fluxPass ⟨0, {}⟩ = (some (), m1) ∧
      m1.acc.accCorrPhi = 11 ∧ m1.acc.accMix = 4 :=
  ⟨by decide, by decide,
    flux_bucket_increment fluxStep fluxPass ⟨0, {}⟩ (by decide) (by decide) rfl rfl⟩

end InterIsoFoamTime
